import Mathlib

/-!
Verification of the `wgpu_cube` renderer.

Shallow embedding of the repository's three source files:
  * `src/vertex.rs`  — the static cube vertex/index tables and the vertex layout;
  * `src/state.rs`   — the render state: construction, `resize`, `input`,
    `update`, `render`;
  * `src/lib.rs`     — the event loop `run`, dispatching window events to the
    state and handling `render`'s error taxonomy.

The `camera` and `texture` modules are referenced by `src/state.rs` but their
sources are not part of the material; the camera operations
(`CameraController::process_events`, `CameraController::update_camera`,
`CameraUniform::update_view_proj`) are modelled from the specification and
are marked as such in their doc comments.

`f32` scalars are modelled as exact numbers: the static vertex data uses only
whole values (exactly representable, modelled as `ℤ`), the fixed clear color
is modelled as exact rationals, and the camera arithmetic is modelled over `ℝ`
(an exact-real idealisation of `f32` arithmetic).  `u32`/`u16` values are
modelled as `ℕ`; no arithmetic is ever performed on them in the source, only
stores and comparisons, so no wrap-around can occur.
-/

namespace WgpuCube

/-! ## Geometry table (`src/vertex.rs`) -/

/-- A mesh vertex: a position (3 `f32`s) and a texture coordinate (2 `f32`s)
(`src/vertex.rs`, `struct Vertex`).  Every component appearing in the static
table is a whole value (`-1.0`, `0.0` or `1.0`), exactly representable in
`f32`, so components are modelled as integers. -/
structure Vertex where
  position : ℤ × ℤ × ℤ
  tex_coords : ℤ × ℤ
  deriving DecidableEq, Repr

/-- The static cube vertex table (`src/vertex.rs`, `VERTICES`).  The trailing
letters are the corner labels used in the source's comments. -/
def VERTICES : List Vertex := [
  ⟨(-1,  1, -1), (0, 0)⟩,  -- B
  ⟨( 1,  1, -1), (1, 0)⟩,  -- A
  ⟨(-1, -1, -1), (0, 1)⟩,  -- C
  ⟨( 1, -1, -1), (1, 1)⟩,  -- D
  ⟨(-1,  1,  1), (1, 0)⟩,  -- H
  ⟨( 1,  1,  1), (0, 0)⟩,  -- E
  ⟨(-1, -1,  1), (1, 1)⟩,  -- G
  ⟨( 1, -1,  1), (0, 1)⟩]  -- F

/-- The static index table (`src/vertex.rs`, `INDICES`): `u16` indices into
`VERTICES`, modelled as naturals. -/
def INDICES : List ℕ := [
  0, 1, 2,  -- Side 0
  2, 1, 3,
  4, 0, 6,  -- Side 1
  6, 0, 2,
  7, 5, 6,  -- Side 2
  6, 5, 4,
  3, 1, 7,  -- Side 3
  7, 1, 5,
  4, 5, 0,  -- Side 4
  0, 5, 1,
  3, 7, 2,  -- Side 5
  2, 7, 6]

/-! ### Derived geometry used to state the winding property (claim C9).
These are checking functions over the source data, not part of the program. -/

/-- Componentwise difference of two positions. -/
def vsub (a b : ℤ × ℤ × ℤ) : ℤ × ℤ × ℤ :=
  (a.1 - b.1, a.2.1 - b.2.1, a.2.2 - b.2.2)

/-- Componentwise sum of two positions. -/
def vadd (a b : ℤ × ℤ × ℤ) : ℤ × ℤ × ℤ :=
  (a.1 + b.1, a.2.1 + b.2.1, a.2.2 + b.2.2)

/-- Cross product of two 3-vectors. -/
def cross (a b : ℤ × ℤ × ℤ) : ℤ × ℤ × ℤ :=
  (a.2.1 * b.2.2 - a.2.2 * b.2.1,
   a.2.2 * b.1 - a.1 * b.2.2,
   a.1 * b.2.1 - a.2.1 * b.1)

/-- Dot product of two 3-vectors. -/
def dot (a b : ℤ × ℤ × ℤ) : ℤ :=
  a.1 * b.1 + a.2.1 * b.2.1 + a.2.2 * b.2.2

/-- The position of vertex `i` of the table (a zero default keeps the lookup
total; all indices in `INDICES` are in range, which claim C9 also checks). -/
def posOf (i : ℕ) : ℤ × ℤ × ℤ :=
  (VERTICES.getD i ⟨(0, 0, 0), (0, 0)⟩).position

/-- Group a flat index list into triangles, three consecutive indices each. -/
def toTriangles : List ℕ → List (ℕ × ℕ × ℕ)
  | a :: b :: c :: rest => (a, b, c) :: toTriangles rest
  | _ => []

/-- The 12 triangles encoded by `INDICES` (triangle-list topology:
`src/state.rs`, `PrimitiveTopology::TriangleList`). -/
def triangles : List (ℕ × ℕ × ℕ) := toTriangles INDICES

/-- A triangle of the cube mesh is wound counter-clockwise as seen from
outside the cube: its normal `(p1 - p0) × (p2 - p0)` (right-hand rule: the
winding is counter-clockwise viewed from the side the normal points to)
points away from the cube's centre, the origin — that is, the normal has
positive dot product with the triangle's centroid direction `p0 + p1 + p2`. -/
def ccwOutward (t : ℕ × ℕ × ℕ) : Prop :=
  let p0 := posOf t.1
  let p1 := posOf t.2.1
  let p2 := posOf t.2.2
  0 < dot (cross (vsub p1 p0) (vsub p2 p0)) (vadd p0 (vadd p1 p2))

instance (t : ℕ × ℕ × ℕ) : Decidable (ccwOutward t) := by
  unfold ccwOutward; infer_instance

/-- The coordinate of a position along axis `a`. -/
def coordAlong (a : Fin 3) (p : ℤ × ℤ × ℤ) : ℤ :=
  match a with
  | 0 => p.1
  | 1 => p.2.1
  | 2 => p.2.2

/-- A triangle lies on the cube face `{coordAlong a = s}` when all three of
its vertices have coordinate `s` along axis `a`. -/
def onFace (a : Fin 3) (s : ℤ) (t : ℕ × ℕ × ℕ) : Bool :=
  coordAlong a (posOf t.1) = s && coordAlong a (posOf t.2.1) = s &&
    coordAlong a (posOf t.2.2) = s

/-! ## Render pipeline primitive configuration (`src/state.rs`) -/

/-- The `wgpu::PrimitiveTopology` enum. -/
inductive PrimitiveTopology
  | PointList | LineList | LineStrip | TriangleList | TriangleStrip
  deriving DecidableEq, Repr

/-- The `wgpu::FrontFace` winding convention. -/
inductive FrontFace
  | Ccw | Cw
  deriving DecidableEq, Repr

/-- The `wgpu::Face` selector, used for culling. -/
inductive Face
  | Front | Back
  deriving DecidableEq, Repr

/-- The fields of `wgpu::PrimitiveState` relevant to winding and culling. -/
structure PrimitiveState where
  topology : PrimitiveTopology
  front_face : FrontFace
  cull_mode : Option Face
  deriving DecidableEq, Repr

/-- The primitive state of the render pipeline built in `State::new`
(`src/state.rs`, the `primitive:` field of the `RenderPipelineDescriptor`):
triangle-list topology, counter-clockwise front faces, back-face culling. -/
def render_pipeline_primitive : PrimitiveState :=
  { topology := .TriangleList, front_face := .Ccw, cull_mode := some .Back }

/-! ## Camera model

The camera module is referenced by `src/state.rs` (`crate::camera`) but its
source is not part of the material, so the camera types and operations below
are modelled from the specification (§3, §4.1, §4.2).  `f32` vectors are
modelled as exact real 3-vectors. -/

/-- A 3-component real vector, modelling `cgmath::{Point3, Vector3}<f32>`. -/
@[ext]
structure Vec3 where
  x : ℝ
  y : ℝ
  z : ℝ

namespace Vec3

def add (a b : Vec3) : Vec3 := ⟨a.x + b.x, a.y + b.y, a.z + b.z⟩

def sub (a b : Vec3) : Vec3 := ⟨a.x - b.x, a.y - b.y, a.z - b.z⟩

def smul (c : ℝ) (a : Vec3) : Vec3 := ⟨c * a.x, c * a.y, c * a.z⟩

instance : Add Vec3 := ⟨add⟩

instance : Sub Vec3 := ⟨sub⟩

instance : SMul ℝ Vec3 := ⟨smul⟩

/-- Dot product. -/
def dotV (a b : Vec3) : ℝ := a.x * b.x + a.y * b.y + a.z * b.z

/-- Cross product (`cgmath::Vector3::cross`). -/
def crossV (a b : Vec3) : Vec3 :=
  ⟨a.y * b.z - a.z * b.y, a.z * b.x - a.x * b.z, a.x * b.y - a.y * b.x⟩

/-- Euclidean magnitude (`cgmath::InnerSpace::magnitude`). -/
noncomputable def norm (v : Vec3) : ℝ := Real.sqrt (v.x ^ 2 + v.y ^ 2 + v.z ^ 2)

/-- Normalization as in `cgmath::InnerSpace::normalize`: the vector scaled by
the reciprocal of its magnitude (at magnitude zero the real model yields the
zero vector). -/
noncomputable def normalize (v : Vec3) : Vec3 := (1 / norm v) • v

end Vec3

/-- Modelled from the spec (§3): the camera holds an eye position, a look-at
target, an up vector, an aspect ratio, a vertical field of view and near/far
clip distances. -/
structure Camera where
  eye : Vec3
  target : Vec3
  up : Vec3
  aspect : ℝ
  fovy : ℝ
  znear : ℝ
  zfar : ℝ

/-- A 4×4 real matrix, modelling `cgmath::Matrix4<f32>`. -/
abbrev Mat4 := Matrix (Fin 4) (Fin 4) ℝ

/-- Modelled from the spec (§4.1): the fixed correction matrix multiplied
into the projection, adapting the projection library's `[-1, 1]` depth range
to the target API's `[0, 1]` convention (`z ↦ z / 2 + w / 2`). -/
noncomputable def OPENGL_TO_WGPU_MATRIX : Mat4 :=
  !![1, 0, 0, 0;
     0, 1, 0, 0;
     0, 0, 1/2, 1/2;
     0, 0, 0, 1]

/-- Modelled from the spec (§4.1): the right-handed look-at view matrix from
eye, target and up. -/
noncomputable def lookAtMatrix (eye target up : Vec3) : Mat4 :=
  let f := Vec3.normalize (target - eye)
  let s := Vec3.normalize (Vec3.crossV f up)
  let u := Vec3.crossV s f
  !![s.x, s.y, s.z, -(Vec3.dotV s eye);
     u.x, u.y, u.z, -(Vec3.dotV u eye);
     -f.x, -f.y, -f.z, Vec3.dotV f eye;
     0, 0, 0, 1]

/-- Modelled from the spec (§4.1): the perspective projection matrix for a
vertical field of view given in degrees, an aspect ratio and near/far clip
distances. -/
noncomputable def perspectiveMatrix (fovy aspect znear zfar : ℝ) : Mat4 :=
  let f := (Real.tan (fovy * Real.pi / 180 / 2))⁻¹
  !![f / aspect, 0, 0, 0;
     0, f, 0, 0;
     0, 0, (zfar + znear) / (znear - zfar), 2 * zfar * znear / (znear - zfar);
     0, 0, -1, 0]

/-- Modelled from the spec (§4.1): the camera's combined view-projection
matrix — the look-at view transform followed by the perspective projection,
with the fixed depth-range correction multiplied in. -/
noncomputable def Camera.build_view_projection_matrix (c : Camera) : Mat4 :=
  OPENGL_TO_WGPU_MATRIX * perspectiveMatrix c.fovy c.aspect c.znear c.zfar
    * lookAtMatrix c.eye c.target c.up

/-- Modelled from the spec (§3): the camera uniform holds a single 4×4
view-projection matrix, pushed to GPU-visible memory every frame. -/
structure CameraUniform where
  view_proj : Mat4

/-- Modelled from the spec (§3): the uniform's initial (`Default`) matrix,
before the first `update_view_proj`, is the identity. -/
noncomputable def CameraUniform.defaultUniform : CameraUniform := ⟨1⟩

/-- Modelled from the spec (§3, §4.3): `update_view_proj` overwrites the
uniform's matrix with the view-projection matrix recomputed from the given
camera. -/
noncomputable def CameraUniform.update_view_proj (_u : CameraUniform)
    (c : Camera) : CameraUniform :=
  ⟨c.build_view_projection_matrix⟩

/-- Modelled from the spec (§3, §4.2): the controller holds four pressed
flags and a movement speed. -/
structure CameraController where
  speed : ℝ
  is_forward_pressed : Bool
  is_backward_pressed : Bool
  is_left_pressed : Bool
  is_right_pressed : Bool

/-- Modelled from the spec: a fresh controller with the given speed and all
flags clear (`CameraController::new`, called with speed `0.2` in
`State::new`). -/
def CameraController.new (speed : ℝ) : CameraController :=
  ⟨speed, false, false, false, false⟩

/-- The directional keys the controller recognises, plus the escape key
(handled by the event loop) and a stand-in for every other key code
(`winit::event::VirtualKeyCode`). -/
inductive VirtualKeyCode
  | W | A | S | D
  | Up | Down | Left | Right
  | Escape
  | OtherKey
  deriving DecidableEq, Repr

/-- Modelled from the spec (§4.2): a key-press/release for W/Up, S/Down,
A/Left, D/Right sets or clears the matching flag and reports the event as
consumed; any other event is reported unconsumed and changes nothing
(`CameraController::process_events`). -/
def CameraController.process_events (c : CameraController) (pressed : Bool)
    (key : Option VirtualKeyCode) : CameraController × Bool :=
  match key with
  | some .W | some .Up => ({ c with is_forward_pressed := pressed }, true)
  | some .S | some .Down => ({ c with is_backward_pressed := pressed }, true)
  | some .A | some .Left => ({ c with is_left_pressed := pressed }, true)
  | some .D | some .Right => ({ c with is_right_pressed := pressed }, true)
  | _ => (c, false)

open scoped Classical in
/-- Modelled from the spec (§4.2; the camera module's source is not part of
the material): `update_camera` computes the forward vector (target − eye,
normalized) and the right vector (forward × up, normalized); if "forward" is
pressed and the eye-to-target distance exceeds the speed, it moves the eye
along +forward by speed; if "backward" is pressed it moves the eye along
−forward by speed, unconditionally; the strafe branches then recompute the
forward vector and distance after any forward/backward move and move the eye
laterally relative to the post-dolly forward direction, re-normalized and
scaled back to the recomputed distance. -/
noncomputable def CameraController.update_camera (c : CameraController)
    (cam : Camera) : Camera :=
  let forward := cam.target - cam.eye
  let forward_norm := Vec3.normalize forward
  let forward_mag := Vec3.norm forward
  let eye1 :=
    if c.is_forward_pressed = true ∧ c.speed < forward_mag then
      cam.eye + c.speed • forward_norm
    else cam.eye
  let eye2 :=
    if c.is_backward_pressed = true then eye1 - c.speed • forward_norm else eye1
  let right := Vec3.normalize (Vec3.crossV forward_norm cam.up)
  let forward2 := cam.target - eye2
  let mag2 := Vec3.norm forward2
  let eye3 :=
    if c.is_right_pressed = true then
      cam.target - mag2 • Vec3.normalize (forward2 + c.speed • right)
    else eye2
  let eye4 :=
    if c.is_left_pressed = true then
      cam.target - mag2 • Vec3.normalize (forward2 - c.speed • right)
    else eye3
  { cam with eye := eye4 }

/-! ## Render state (`src/state.rs`) -/

/-- The window size in physical pixels, `winit::dpi::PhysicalSize<u32>`. -/
structure PhysicalSize where
  width : ℕ
  height : ℕ
  deriving DecidableEq, Repr

/-- The fields of `wgpu::SurfaceConfiguration` that the program reads or
writes after construction.  The remaining fields (usage, format, present
mode, alpha mode) are opaque GPU configuration fixed once in `State::new`. -/
structure SurfaceConfiguration where
  width : ℕ
  height : ℕ
  deriving DecidableEq, Repr

/-- The embeddable fields of `State` (`src/state.rs`).  The GPU handles
(surface, device, queue, pipeline, buffers, bind groups, texture) are opaque
external resources; of the GPU-side buffers, only the camera uniform buffer
is ever written after construction, and `camera_buffer` models the matrix
content last written to it. -/
structure State where
  config : SurfaceConfiguration
  size : PhysicalSize
  num_indices : ℕ
  camera : Camera
  camera_controller : CameraController
  camera_uniform : CameraUniform
  camera_buffer : Mat4

/-- Construction, `State::new` (`src/state.rs`): configures the surface at the window's
current physical size, builds the initial camera (eye `(0, 4, 6)`, target at
the origin, up `+y`, aspect `width / height`, fovy 45, znear 0.1, zfar 100),
a controller of speed 0.2 with no key pressed, computes the initial uniform
from the camera and uploads it, and stores `INDICES.len()` as
`num_indices`. -/
noncomputable def State.new (size : PhysicalSize) : State :=
  let config : SurfaceConfiguration := { width := size.width, height := size.height }
  let camera : Camera :=
    { eye := ⟨0, 4, 6⟩
      target := ⟨0, 0, 0⟩
      up := ⟨0, 1, 0⟩
      aspect := (config.width : ℝ) / (config.height : ℝ)
      fovy := 45
      znear := 1/10
      zfar := 100 }
  let camera_controller := CameraController.new (1/5)
  let camera_uniform := CameraUniform.defaultUniform.update_view_proj camera
  { config := config
    size := size
    num_indices := INDICES.length
    camera := camera
    camera_controller := camera_controller
    camera_uniform := camera_uniform
    camera_buffer := camera_uniform.view_proj }

/-- Resizing, `State::resize` (`src/state.rs`): when both new dimensions are positive,
stores the new size, reconfigures the surface to the new dimensions and
recomputes the camera aspect as `config.width / config.height`; otherwise
does nothing. -/
noncomputable def State.resize (s : State) (new_size : PhysicalSize) : State :=
  if 0 < new_size.width ∧ 0 < new_size.height then
    let config : SurfaceConfiguration :=
      { width := new_size.width, height := new_size.height }
    { s with
      size := new_size
      config := config
      camera := { s.camera with
        aspect := (config.width : ℝ) / (config.height : ℝ) } }
  else s

/-- Input forwarding, `State::input` (`src/state.rs`): forwards a keyboard event to
`CameraController::process_events`, returning whether it was consumed. -/
def State.input (s : State) (pressed : Bool) (key : Option VirtualKeyCode) :
    State × Bool :=
  let r := s.camera_controller.process_events pressed key
  ({ s with camera_controller := r.1 }, r.2)

/-- The per-frame update, `State::update` (`src/state.rs`): runs the controller's `update_camera`
on the camera, recomputes the uniform from the (possibly mutated) camera,
then writes the full uniform contents to the GPU-side camera buffer. -/
noncomputable def State.update (s : State) : State :=
  let camera := s.camera_controller.update_camera s.camera
  let camera_uniform := s.camera_uniform.update_view_proj camera
  { s with
    camera := camera
    camera_uniform := camera_uniform
    camera_buffer := camera_uniform.view_proj }

/-- The `wgpu::SurfaceError` variants: the acquisition failures that
`get_current_texture` can report. -/
inductive SurfaceError
  | Timeout
  | Outdated
  | Lost
  | OutOfMemory
  deriving DecidableEq, Repr

/-- One recorded render-pass command (`src/state.rs`, `State::render`). -/
inductive RenderCommand
  | beginRenderPass (clear_r clear_g clear_b clear_a : ℚ)
  | setPipeline
  | setBindGroup (index : ℕ)
  | setVertexBuffer (slot : ℕ)
  | setIndexBuffer
  | drawIndexed (start stop : ℕ) (base_vertex : ℤ) (inst_start inst_stop : ℕ)
  deriving DecidableEq, Repr

/-- Whether a command is an indexed draw call. -/
def isDrawIndexed : RenderCommand → Bool
  | .drawIndexed _ _ _ _ _ => true
  | _ => false

/-- The render pass recorded by a successful `State::render`
(`src/state.rs`): clear to the fixed background color, bind the pipeline,
the texture bind group (slot 0), the camera bind group (slot 1), the vertex
and index buffers, then one indexed draw over `0..num_indices`, base vertex
0, instances `0..1`. -/
def renderCommands (s : State) : List RenderCommand :=
  [.beginRenderPass (1/10) (1/5) (3/10) 1,
   .setPipeline,
   .setBindGroup 0,
   .setBindGroup 1,
   .setVertexBuffer 0,
   .setIndexBuffer,
   .drawIndexed 0 s.num_indices 0 0 1]

/-- Rendering, `State::render` (`src/state.rs`): acquiring the next surface image is an
interaction with the driver, modelled by the `acquire` argument (`none` for
success, `some e` for the error the source's `?` operator propagates).  On
success the recorded pass is submitted and presented; the embeddable state is
not mutated either way. -/
def State.render (s : State) (acquire : Option SurfaceError) :
    State × Except SurfaceError (List RenderCommand) :=
  match acquire with
  | some e => (s, .error e)
  | none => (s, .ok (renderCommands s))

/-! ## Event loop (`src/lib.rs`) -/

/-- The events `run`'s match distinguishes (`src/lib.rs`).  A keyboard event
carries the `pressed` element state and the optional virtual key code; a
redraw request carries the frame's surface-acquisition outcome (an external
interaction, see `State.render`). -/
inductive AppEvent
  | CloseRequested
  | KeyboardInput (pressed : Bool) (virtual_keycode : Option VirtualKeyCode)
  | Resized (phys_size : PhysicalSize)
  | ScaleFactorChanged (new_inner_size : PhysicalSize)
  | OtherWindowEvent
  | RedrawRequested (acquire : Option SurfaceError)
  | MainEventsCleared

/-- The `winit::event_loop::ControlFlow` value set by the callback: the loop either keeps running or is
told to exit. -/
inductive ControlFlow
  | Poll
  | Exit
  deriving DecidableEq, Repr

/-- The outcome of one iteration of `run`'s event callback: the state after
the event, the control flow set by the arm, the surface errors logged, and
whether a redraw was requested. -/
structure LoopStep where
  state : State
  control_flow : ControlFlow
  logged : List SurfaceError
  redraw_requested : Bool

/-- One iteration of the event callback in `run` (`src/lib.rs`): close
requests and a pressed Escape exit; resize and scale-factor changes call
`State::resize`; every other window event — including all other keyboard
input — does nothing; a redraw request runs `update` then `render`, and on
render failure reconfigures via `resize(size)` when the surface was lost,
exits when out of memory, and logs any other error; `MainEventsCleared`
requests another redraw. -/
noncomputable def handleEvent (s : State) (ev : AppEvent) : LoopStep :=
  match ev with
  | .CloseRequested => ⟨s, .Exit, [], false⟩
  | .KeyboardInput true (some .Escape) => ⟨s, .Exit, [], false⟩
  | .Resized phys_size => ⟨s.resize phys_size, .Poll, [], false⟩
  | .ScaleFactorChanged new_inner_size => ⟨s.resize new_inner_size, .Poll, [], false⟩
  | .KeyboardInput _ _ => ⟨s, .Poll, [], false⟩
  | .OtherWindowEvent => ⟨s, .Poll, [], false⟩
  | .RedrawRequested acquire =>
    let s1 := s.update
    match s1.render acquire with
    | (s2, .ok _) => ⟨s2, .Poll, [], false⟩
    | (s2, .error .Lost) => ⟨s2.resize s2.size, .Poll, [], false⟩
    | (s2, .error .OutOfMemory) => ⟨s2, .Exit, [], false⟩
    | (s2, .error e) => ⟨s2, .Poll, [e], false⟩
  | .MainEventsCleared => ⟨s, .Poll, [], true⟩

/-- The stored-size/surface-configuration coherence invariant of claim C10:
the `size` field always matches the configured surface dimensions. -/
def sizeInv (s : State) : Prop :=
  s.size.width = s.config.width ∧ s.size.height = s.config.height

/-- A concrete controller — speed 1, only the forward flag pressed — used to
evaluate the claim-C6 theorem at a concrete input. -/
def ctlW : CameraController := ⟨1, true, false, false, false⟩

/-- A concrete camera five units from its target, used to evaluate the
claim-C6 theorem at a concrete input. -/
noncomputable def camW : Camera :=
  { eye := ⟨0, 0, 5⟩, target := ⟨0, 0, 0⟩, up := ⟨0, 1, 0⟩,
    aspect := 1, fovy := 45, znear := 1/10, zfar := 100 }

/-! ## Theorems -/

/-- Unfolding lemma for `Vec3` addition. -/
theorem Vec3.add_def (a b : Vec3) :
    a + b = ⟨a.x + b.x, a.y + b.y, a.z + b.z⟩ := rfl

/-- Unfolding lemma for `Vec3` subtraction. -/
theorem Vec3.sub_def (a b : Vec3) :
    a - b = ⟨a.x - b.x, a.y - b.y, a.z - b.z⟩ := rfl

/-- Unfolding lemma for `Vec3` scaling. -/
theorem Vec3.smul_def (c : ℝ) (a : Vec3) :
    c • a = ⟨c * a.x, c * a.y, c * a.z⟩ := rfl

/-- Scaling a vector scales its magnitude by the absolute scale factor. -/
theorem vec3_norm_smul (c : ℝ) (v : Vec3) : (c • v).norm = |c| * v.norm := by
  simp only [Vec3.smul_def, Vec3.norm]
  rw [show (c * v.x) ^ 2 + (c * v.y) ^ 2 + (c * v.z) ^ 2
      = c ^ 2 * (v.x ^ 2 + v.y ^ 2 + v.z ^ 2) by ring,
    Real.sqrt_mul (sq_nonneg c), Real.sqrt_sq_eq_abs]

/-- C1: when `render()` fails to acquire the next surface image, the event
loop's handling matches the error taxonomy — on `Lost` it re-invokes `resize`
with the currently stored size and keeps running; on `OutOfMemory` it sets the
control flow to exit; on any other acquisition error it only logs the error,
skips the frame, and leaves the state (as of after the frame's `update`)
unchanged. -/
theorem claim1 (s : State) :
    handleEvent s (.RedrawRequested (some .Lost))
      = ⟨s.update.resize s.update.size, .Poll, [], false⟩ ∧
    handleEvent s (.RedrawRequested (some .OutOfMemory))
      = ⟨s.update, .Exit, [], false⟩ ∧
    (∀ e : SurfaceError, e ≠ .Lost → e ≠ .OutOfMemory →
      handleEvent s (.RedrawRequested (some e)) = ⟨s.update, .Poll, [e], false⟩) := by
  refine ⟨rfl, rfl, fun e h1 h2 => ?_⟩
  cases e
  · rfl
  · rfl
  · exact absurd rfl h1
  · exact absurd rfl h2

/-- Witness for C1: at a freshly constructed state, a `Timeout` acquisition
error is logged, the frame is skipped, and the state is exactly the state
after `update`. -/
theorem claim1_witness :
    handleEvent (State.new ⟨800, 600⟩) (.RedrawRequested (some .Timeout))
      = ⟨(State.new ⟨800, 600⟩).update, .Poll, [.Timeout], false⟩ :=
  (claim1 (State.new ⟨800, 600⟩)).2.2 .Timeout (by decide) (by decide)

/-- C2: every `State::update` first runs the controller's `update_camera` on
the camera, then recomputes the uniform matrix from the resulting camera, then
writes the full uniform contents to the GPU-side buffer — so after every
`update` the uniform (and the buffer) reflect the camera state as of that
call. -/
theorem claim2 (s : State) :
    s.update.camera = s.camera_controller.update_camera s.camera ∧
    s.update.camera_uniform.view_proj
      = s.update.camera.build_view_projection_matrix ∧
    s.update.camera_buffer = s.update.camera_uniform.view_proj := by
  refine ⟨rfl, ?_, rfl⟩
  simp [State.update, CameraUniform.update_view_proj]

/-- C3: `num_indices` is set to `INDICES.len() = 36` at construction and never
changed by `resize`, `update`, `input` or `render`, and a successful `render`
records exactly one indexed draw call, covering index range `0..36` with base
vertex 0 and exactly one instance (`0..1`), regardless of camera state. -/
theorem claim3 :
    INDICES.length = 36 ∧
    (∀ sz, (State.new sz).num_indices = 36) ∧
    (∀ (s : State) (sz : PhysicalSize), (s.resize sz).num_indices = s.num_indices) ∧
    (∀ s : State, s.update.num_indices = s.num_indices) ∧
    (∀ (s : State) (p : Bool) (k : Option VirtualKeyCode),
      (s.input p k).1.num_indices = s.num_indices) ∧
    (∀ (s : State) (acq : Option SurfaceError),
      (s.render acq).1.num_indices = s.num_indices) ∧
    (∀ s : State, s.num_indices = 36 →
      (renderCommands s).filter isDrawIndexed = [.drawIndexed 0 36 0 0 1]) := by
  refine ⟨rfl, fun sz => rfl, fun s sz => ?_, fun s => rfl, fun s p k => rfl,
    fun s acq => ?_, fun s h => ?_⟩
  · by_cases hc : 0 < sz.width ∧ 0 < sz.height
    · simp [State.resize, hc]
    · simp [State.resize, hc]
  · cases acq <;> rfl
  · unfold renderCommands
    rw [h]
    rfl

/-- Witness for C3: at a freshly constructed state the recorded pass contains
exactly the one draw call over `0..36`, one instance. -/
theorem claim3_witness :
    (renderCommands (State.new ⟨800, 600⟩)).filter isDrawIndexed
      = [.drawIndexed 0 36 0 0 1] :=
  claim3.2.2.2.2.2.2 (State.new ⟨800, 600⟩) (claim3.2.1 ⟨800, 600⟩)

/-- C4: for every prior state and positive dimensions, `resize(w, h)` sets the
surface configuration to `(w, h)` and the camera aspect to exactly the
division `w / h`; in particular `(800, 600)` yields `800 / 600` and `(1, 1)`
yields `1`. -/
theorem claim4 (s : State) (w h : ℕ) (hw : 0 < w) (hh : 0 < h) :
    (s.resize ⟨w, h⟩).config.width = w ∧
    (s.resize ⟨w, h⟩).config.height = h ∧
    (s.resize ⟨w, h⟩).camera.aspect = (w : ℝ) / (h : ℝ) ∧
    (s.resize ⟨800, 600⟩).camera.aspect = (800 : ℝ) / 600 ∧
    (s.resize ⟨1, 1⟩).camera.aspect = 1 := by
  refine ⟨?_, ?_, ?_, ?_, ?_⟩ <;> norm_num [State.resize, hw, hh]

/-- Witness for C4: resizing a freshly constructed 800×600 state to 400×300
sets the aspect to `400 / 300`. -/
theorem claim4_witness :
    0 < 400 ∧ 0 < 300 ∧
    ((State.new ⟨800, 600⟩).resize ⟨400, 300⟩).camera.aspect = (400 : ℝ) / 300 :=
  ⟨by norm_num, by norm_num,
    (claim4 (State.new ⟨800, 600⟩) 400 300 (by norm_num) (by norm_num)).2.2.1⟩

/-- C5: for every prior state, `resize(0, h)` and `resize(w, 0)` are complete
no-ops — the whole state (stored size, surface configuration, camera aspect)
is unchanged. -/
theorem claim5 (s : State) (w h : ℕ) :
    s.resize ⟨0, h⟩ = s ∧ s.resize ⟨w, 0⟩ = s := by
  constructor <;> simp [State.resize]

/-- C6: with only the forward flag pressed, `update_camera` moves the eye
along the normalized eye-to-target direction by the configured speed exactly
when the eye-to-target distance exceeds the speed — each such call shortens
the distance by exactly the speed (hence strictly), and once the distance is
at most the speed the camera is left entirely unchanged; with only the
backward flag pressed the eye moves by speed against that direction
unconditionally. -/
theorem claim6 (ctl : CameraController) (cam : Camera)
    (hl : ctl.is_left_pressed = false) (hr : ctl.is_right_pressed = false) :
    (ctl.is_forward_pressed = true → ctl.is_backward_pressed = false →
      0 < ctl.speed →
      ((ctl.speed < Vec3.norm (cam.target - cam.eye) →
        (ctl.update_camera cam).eye
          = cam.eye + ctl.speed • Vec3.normalize (cam.target - cam.eye) ∧
        Vec3.norm (cam.target - (ctl.update_camera cam).eye)
          = Vec3.norm (cam.target - cam.eye) - ctl.speed ∧
        Vec3.norm (cam.target - (ctl.update_camera cam).eye)
          < Vec3.norm (cam.target - cam.eye)) ∧
      (Vec3.norm (cam.target - cam.eye) ≤ ctl.speed →
        ctl.update_camera cam = cam))) ∧
    (ctl.is_backward_pressed = true → ctl.is_forward_pressed = false →
      (ctl.update_camera cam).eye
        = cam.eye - ctl.speed • Vec3.normalize (cam.target - cam.eye)) := by
  constructor
  · intro hf hb hs
    constructor
    · intro hd
      have hd0 : 0 < Vec3.norm (cam.target - cam.eye) := lt_trans hs hd
      have heye : (ctl.update_camera cam).eye
          = cam.eye + ctl.speed • Vec3.normalize (cam.target - cam.eye) := by
        simp [CameraController.update_camera, hf, hb, hl, hr, hd]
      have hw : cam.target - (ctl.update_camera cam).eye
          = (1 - ctl.speed / Vec3.norm (cam.target - cam.eye))
              • (cam.target - cam.eye) := by
        rw [heye]
        ext <;> simp [Vec3.normalize, Vec3.sub_def, Vec3.add_def, Vec3.smul_def] <;>
          ring
      have hfac : 0 ≤ 1 - ctl.speed / Vec3.norm (cam.target - cam.eye) := by
        have := (div_lt_one hd0).mpr hd
        linarith
      have hnn : Vec3.norm (cam.target - (ctl.update_camera cam).eye)
          = Vec3.norm (cam.target - cam.eye) - ctl.speed := by
        rw [hw, vec3_norm_smul, abs_of_nonneg hfac, sub_mul, one_mul,
          div_mul_cancel₀ _ hd0.ne']
      exact ⟨heye, hnn, by rw [hnn]; exact sub_lt_self _ hs⟩
    · intro hd'
      have hnd : ¬ (ctl.speed < Vec3.norm (cam.target - cam.eye)) := not_lt.mpr hd'
      simp [CameraController.update_camera, hf, hb, hl, hr, hnd]
  · intro hb hf
    simp [CameraController.update_camera, hf, hb, hl, hr]

/-- Witness for C6: with speed 1 and the forward flag pressed, a camera five
units from its target moves to exactly four units away. -/
theorem claim6_witness :
    (0 : ℝ) < ctlW.speed ∧
    ctlW.speed < Vec3.norm (camW.target - camW.eye) ∧
    Vec3.norm (camW.target - (ctlW.update_camera camW).eye)
      = Vec3.norm (camW.target - camW.eye) - ctlW.speed ∧
    Vec3.norm (camW.target - (ctlW.update_camera camW).eye) = 4 := by
  have h1 : camW.target - camW.eye = (⟨0, 0, -5⟩ : Vec3) := by
    ext <;> simp [camW, Vec3.sub_def]
  have hnorm : Vec3.norm (camW.target - camW.eye) = 5 := by
    rw [h1]
    unfold Vec3.norm
    rw [show ((⟨0, 0, -5⟩ : Vec3).x ^ 2 + (⟨0, 0, -5⟩ : Vec3).y ^ 2
        + (⟨0, 0, -5⟩ : Vec3).z ^ 2) = 5 ^ 2 by norm_num]
    exact Real.sqrt_sq (by norm_num)
  have hsp : (0 : ℝ) < ctlW.speed := by norm_num [ctlW]
  have hlt : ctlW.speed < Vec3.norm (camW.target - camW.eye) := by
    rw [hnorm]; norm_num [ctlW]
  have h := ((claim6 ctlW camW rfl rfl).1 rfl rfl hsp).1 hlt
  refine ⟨hsp, hlt, h.2.1, ?_⟩
  rw [h.2.1, hnorm]
  norm_num [ctlW]

/-- C7 fails on the code: the event loop in `run` (`src/lib.rs`) never calls
`State::input`, so a pressed W key — a recognized directional key — falls into
the wildcard arm and leaves the camera controller (and the whole state)
unchanged, while `State::input` on the same event would have set the forward
flag.  This contradicts the claim (and spec §6): key events are not forwarded
to the camera controller. -/
theorem claim7_code_bug (s : State) :
    (handleEvent s (.KeyboardInput true (some .W))).state = s ∧
    (handleEvent s (.KeyboardInput true (some .W))).control_flow
      = ControlFlow.Poll ∧
    (handleEvent s (.KeyboardInput true (some .W))).state.camera_controller
      = s.camera_controller ∧
    (s.input true (some .W)).1.camera_controller.is_forward_pressed = true :=
  ⟨rfl, rfl, rfl, rfl⟩

/-- C8's counterexample: the first vertex of the table is the corner
`(-1, 1, -1)`, whose coordinates are at distance 1 — strictly more than the
claimed one half — from the origin, so the vertices are not the corners of a
unit cube. -/
theorem claim8_counterexample :
    VERTICES.getD 0 ⟨(0, 0, 0), (0, 0)⟩ = ⟨(-1, 1, -1), (0, 0)⟩ ∧
    (1 : ℚ) / 2 < |(((VERTICES.getD 0 ⟨(0, 0, 0), (0, 0)⟩).position.1 : ℤ) : ℚ)| := by
  refine ⟨rfl, ?_⟩
  norm_num [VERTICES]

/-- C8 (amended): the static vertex table contains exactly 8 pairwise distinct
vertices whose positions are the corners of the axis-aligned cube of edge
length two centered at the origin — every coordinate at distance one from the
center along each axis, with all eight sign combinations present. -/
theorem claim8 :
    VERTICES.length = 8 ∧
    VERTICES.Pairwise (fun u v => u ≠ v ∧ u.position ≠ v.position) ∧
    (∀ v ∈ VERTICES,
      |v.position.1| = 1 ∧ |v.position.2.1| = 1 ∧ |v.position.2.2| = 1) ∧
    (∀ sx sy sz : Bool, ∃ v ∈ VERTICES,
      v.position
        = ((if sx then 1 else -1), (if sy then 1 else -1), (if sz then 1 else -1))) := by
  decide

/-- C9: the index table holds exactly 36 indices, all fitting in 16 unsigned
bits and in range for the 8-entry vertex table, forming 12 triangles with
exactly 2 on each of the 6 cube faces; every triangle is wound
counter-clockwise as seen from outside the cube, and the pipeline selects
counter-clockwise front faces with back-face culling, so all 12 triangles
face outward. -/
theorem claim9 :
    INDICES.length = 36 ∧
    (∀ i ∈ INDICES, i < 2 ^ 16) ∧
    (∀ i ∈ INDICES, i < VERTICES.length) ∧
    triangles.length = 12 ∧
    (∀ a : Fin 3,
      (triangles.filter (onFace a 1)).length = 2 ∧
      (triangles.filter (onFace a (-1))).length = 2) ∧
    (∀ t ∈ triangles, ccwOutward t) ∧
    render_pipeline_primitive.topology = PrimitiveTopology.TriangleList ∧
    render_pipeline_primitive.front_face = FrontFace.Ccw ∧
    render_pipeline_primitive.cull_mode = some Face.Back := by
  decide

/-- C10: the stored size equals the configured surface dimensions after
construction, and the invariant is preserved by `resize`, `update`, `render`,
`input` and every event-loop step; consequently the surface-lost recovery call
`resize(self.size)` reconfigures the surface at exactly the currently
configured dimensions. -/
theorem claim10 :
    (∀ sz, sizeInv (State.new sz)) ∧
    (∀ (s : State) (sz : PhysicalSize), sizeInv s → sizeInv (s.resize sz)) ∧
    (∀ s : State, sizeInv s → sizeInv s.update) ∧
    (∀ (s : State) (acq : Option SurfaceError),
      sizeInv s → sizeInv (s.render acq).1) ∧
    (∀ (s : State) (p : Bool) (k : Option VirtualKeyCode),
      sizeInv s → sizeInv (s.input p k).1) ∧
    (∀ (s : State) (ev : AppEvent), sizeInv s → sizeInv (handleEvent s ev).state) ∧
    (∀ s : State, sizeInv s →
      (s.resize s.size).config.width = s.config.width ∧
      (s.resize s.size).config.height = s.config.height ∧
      (s.resize s.size).size = s.size) := by
  have hresize : ∀ (s : State) (sz : PhysicalSize),
      sizeInv s → sizeInv (s.resize sz) := by
    intro s sz h
    by_cases hc : 0 < sz.width ∧ 0 < sz.height
    · simp [State.resize, hc, sizeInv]
    · simp [State.resize, hc]
      exact h
  have hupdate : ∀ s : State, sizeInv s → sizeInv s.update := fun s h => h
  have hrender : ∀ (s : State) (acq : Option SurfaceError),
      sizeInv s → sizeInv (s.render acq).1 := by
    intro s acq h
    cases acq <;> exact h
  refine ⟨fun sz => ⟨rfl, rfl⟩, hresize, hupdate, hrender, fun s p k h => h,
    fun s ev h => ?_, fun s h => ?_⟩
  · cases ev with
    | RedrawRequested acq =>
      cases acq with
      | none => exact hupdate s h
      | some e =>
        cases e
        · exact hupdate s h
        · exact hupdate s h
        · exact hresize _ _ (hupdate s h)
        · exact hupdate s h
    | Resized sz => exact hresize s sz h
    | ScaleFactorChanged sz => exact hresize s sz h
    | KeyboardInput p k =>
      cases p <;> [exact h; cases k] <;>
        first | exact h | (rename_i kc; cases kc <;> exact h)
    | _ => exact h
  · by_cases hc : 0 < s.size.width ∧ 0 < s.size.height
    · simp [State.resize, hc, sizeInv] at h ⊢
      simp [h]
    · simp [State.resize, hc]

/-- Witness for C10: the size/configuration invariant holds at a freshly
constructed 800×600 state and is preserved by a resize to 400×300. -/
theorem claim10_witness :
    sizeInv ((State.new ⟨800, 600⟩).resize ⟨400, 300⟩) :=
  claim10.2.1 (State.new ⟨800, 600⟩) ⟨400, 300⟩ (claim10.1 ⟨800, 600⟩)

end WgpuCube
